import Mathlib

/-!
Verification of the `fast_ecomm` catalog CRUD service
(`src/schema/product.py`, `src/services/serve_product.py`, `src/main.py`).

The service stores product records as JSON dictionaries in a flat file.
We embed the record layer shallowly: a JSON value type `JVal`, dictionaries
as association lists with Python-dict semantics (insertion order preserved,
assignment to an existing key replaces in place, new keys are appended),
and the service functions `add_product`, `remove_product`, `change_product`
from `src/services/serve_product.py` as Lean functions over that model.
The pydantic validators of `src/schema/product.py` are embedded as Boolean
checkers over the same dictionaries, and the computed fields
(`discounted_price`, `volume_cm3`) as rational-valued functions, with
Python's `round(x, 2)` modelled as round-half-to-even at two decimals.
-/

namespace FastEcomm

/-- JSON values, the data manipulated by the service layer
(`json.load`/`json.dump` in `src/services/serve_product.py`). `jobj` keeps
fields as an ordered association list, matching Python dict insertion order. -/
inductive JVal where
  | jnull : JVal
  | jbool : Bool → JVal
  | jnum : ℚ → JVal
  | jstr : String → JVal
  | jarr : List JVal → JVal
  | jobj : List (String × JVal) → JVal
deriving Repr

mutual
/-- Python `==` on JSON values (structural equality). -/
def beqJ : JVal → JVal → Bool
  | .jnull, .jnull => true
  | .jbool a, .jbool b => a == b
  | .jnum a, .jnum b => a == b
  | .jstr a, .jstr b => a == b
  | .jarr xs, .jarr ys => beqArr xs ys
  | .jobj xs, .jobj ys => beqObj xs ys
  | _, _ => false

/-- Python `==` on JSON arrays, elementwise. -/
def beqArr : List JVal → List JVal → Bool
  | [], [] => true
  | x :: xs, y :: ys => beqJ x y && beqArr xs ys
  | _, _ => false

/-- Equality of JSON objects, bindingwise in order. (Python dict `==` is
order-insensitive; the service only ever compares SKU values, which the
validator guarantees are strings, so object comparison is unreachable and
any total extension of string equality is adequate.) -/
def beqObj : List (String × JVal) → List (String × JVal) → Bool
  | [], [] => true
  | (k, v) :: xs, (k', v') :: ys => k == k' && beqJ v v' && beqObj xs ys
  | _, _ => false
end

/-- A record as stored: a Python dict, i.e. an ordered association list. -/
abbrev Dict := List (String × JVal)

/-- `d.get(k)` / `d[k]` lookup on a Python dict: first (and only) binding. -/
def getKey (d : Dict) (k : String) : Option JVal :=
  match d with
  | [] => none
  | (k', v) :: rest => if k' = k then some v else getKey rest k

/-- `d[k] = v` on a Python dict: replace the value in place when the key is
present (keeping its position), otherwise append the new binding at the end. -/
def setKey (d : Dict) (k : String) (v : JVal) : Dict :=
  match d with
  | [] => [(k, v)]
  | (k', v') :: rest =>
      if k' = k then (k', v) :: rest else (k', v') :: setKey rest k v

/-- `r.update(u)` on Python dicts: assign each binding of `u` into `r`,
in `u`'s insertion order. -/
def dictUpdate (r : Dict) (u : Dict) : Dict :=
  u.foldl (fun acc kv => setKey acc kv.1 kv.2) r

/-- One iteration of the merge loop in `change_product`
(`src/services/serve_product.py` lines 42–49): skip `None` values; when both
the update value and the current value are dicts, `product[key].update(value)`;
otherwise `product[key] = value`. -/
def mergeStep (product : Dict) (kv : String × JVal) : Dict :=
  match kv.2 with
  | .jnull => product
  | .jobj u =>
      match getKey product kv.1 with
      | some (.jobj r) => setKey product kv.1 (.jobj (dictUpdate r u))
      | _ => setKey product kv.1 kv.2
  | _ => setKey product kv.1 kv.2

/-- The whole inner loop of `change_product`: fold the merge step over the
entries of `update_data` in insertion order. -/
def applyUpdate (product : Dict) (update_data : Dict) : Dict :=
  update_data.foldl mergeStep product

/-- The comparison `p["sku"] == product["sku"]`: every record reaching
`add_product` carries a `"sku"` key (Python would raise `KeyError`
otherwise), and equal values compare `True`. -/
def beqOpt : Option JVal → Option JVal → Bool
  | none, none => true
  | some a, some b => beqJ a b
  | _, _ => false

/-- The comparison `p["id"] == id` in the service loops: `id` is a string,
so the dict value matches exactly when it is an equal string. -/
def idMatches (p : Dict) (id : String) : Bool :=
  match getKey p "id" with
  | some (.jstr s) => s == id
  | _ => false

/-- `change_product(id, update_data)` from `src/services/serve_product.py`
lines 37–55, on an explicit collection. The source iterates over `products`
but never compares `product["id"]` with `id`: the first iteration merges
`update_data` into the first record, saves, and returns, so only an empty
collection reaches the `raise ValueError(...)` line. The result carries the
saved collection and the returned (merged) record. -/
def change_product (id : String) (update_data : Dict) (products : List Dict) :
    Except String (List Dict × Dict) :=
  match products with
  | [] => .error ("Product with id " ++ id ++ " not found.")
  | product :: rest =>
      let merged := applyUpdate product update_data
      .ok (merged :: rest, merged)

/-- `remove_product(id)` from `src/services/serve_product.py` lines 28–35:
pop and save on the first record whose `"id"` equals `id`; when no record
matches, the loop falls through and the function returns Python `None`
(modelled as `none`) — the collection is not rewritten. On success the
result is the remaining collection and the deleted record. -/
def remove_product (id : String) (products : List Dict) :
    Option (List Dict × Dict) :=
  match products with
  | [] => none
  | p :: rest =>
      if idMatches p id then some (rest, p)
      else
        match remove_product id rest with
        | some (rest', deleted) => some (p :: rest', deleted)
        | none => none

/-- Python `str()` of the SKU value as the `ValueError` f-string
interpolates it; the validator guarantees SKU values are strings, so
other shapes never reach `add_product` through the API. -/
def skuText : Option JVal → String
  | some (.jstr s) => s
  | _ => ""

/-- `add_product(product)` from `src/services/serve_product.py` lines 20–26:
raise `ValueError` when some existing record has the same `"sku"` value,
otherwise append and save. -/
def add_product (product : Dict) (products : List Dict) :
    Except String (List Dict) :=
  if products.any (fun p => beqOpt (getKey p "sku") (getKey product "sku")) then
    .error ("Product with SKU " ++ skuText (getKey product "sku")
      ++ " already exists.")
  else
    .ok (products ++ [product])

mutual
theorem beqJ_refl : ∀ a, beqJ a a = true
  | .jnull => by simp [beqJ]
  | .jbool b => by simp [beqJ]
  | .jnum q => by simp [beqJ]
  | .jstr s => by simp [beqJ]
  | .jarr xs => by simp only [beqJ]; exact beqArr_refl xs
  | .jobj xs => by simp only [beqJ]; exact beqObj_refl xs

theorem beqArr_refl : ∀ xs, beqArr xs xs = true
  | [] => by simp [beqArr]
  | x :: xs => by
      simp only [beqArr, Bool.and_eq_true]
      exact ⟨beqJ_refl x, beqArr_refl xs⟩

theorem beqObj_refl : ∀ xs, beqObj xs xs = true
  | [] => by simp [beqObj]
  | (k, v) :: xs => by
      simp only [beqObj, Bool.and_eq_true]
      exact ⟨⟨by simp, beqJ_refl v⟩, beqObj_refl xs⟩
end

/-! ### Derived-field calculator (`src/schema/product.py` lines 182–197)

Python's built-in `round(x, 2)` rounds half to even; we model product
numbers as rationals and `round(x, 2)` as `round2`. -/

/-- Round a rational to the nearest integer, ties to even (Python `round`). -/
def roundHalfEven (q : ℚ) : ℤ :=
  let f : ℤ := ⌊q⌋
  let r : ℚ := q - f
  if r < 1 / 2 then f
  else if 1 / 2 < r then f + 1
  else if f % 2 = 0 then f else f + 1

/-- Python `round(q, 2)`. -/
def round2 (q : ℚ) : ℚ := (roundHalfEven (q * 100) : ℚ) / 100

/-- `Dimensions_cm` from `src/schema/product.py`: three lengths in cm. -/
structure Dimensions_cm where
  length : ℚ
  width : ℚ
  height : ℚ
deriving Repr, DecidableEq

/-- The computed field `Product.discounted_price`: when `discount_percent`
is set, `round(price - (discount_percent / 100) * price, 2)`; else `None`. -/
def discounted_price (price : ℚ) (discount_percent : Option ℚ) : Option ℚ :=
  match discount_percent with
  | some d => some (round2 (price - d / 100 * price))
  | none => none

/-- The computed field `Product.volume_cm3`:
`round(length * width * height, 2)`. -/
def volume_cm3 (d : Dimensions_cm) : ℚ :=
  round2 (d.length * d.width * d.height)

/-! ### Seller email-domain validator (`src/schema/product.py` lines 26–60,
and its verbatim copy in `UpdateSeller`, lines 211–245)

The Python source writes the set literal with a missing comma between
`"dellexclusive.in"` and `"ecommerce.com"`; adjacent string literals
concatenate, so the evaluated set holds the single element
`"dellexclusive.inecommerce.com"` and neither of the two intended ones. -/

/-- The `allowed_domains` set as Python evaluates it. -/
def allowed_domains : List String :=
  [ "example.com",
    "shop.com",
    "dellexclusive.inecommerce.com",
    "mistore.in",
    "realmeofficial.in",
    "applestoreindia.in",
    "samsungshop.in",
    "oneplusstore.in",
    "nokiaofficial.in",
    "lgshop.in",
    "sonyofficial.in",
    "htcofficial.in",
    "motorolaofficial.in",
    "asusofficial.in",
    "dellstore.in",
    "hpstore.in",
    "lenovostore.in",
    "acerstore.in",
    "microsoftstore.in",
    "xiaomiofficial.in",
    "realme.com",
    "apple.com",
    "samsung.com",
    "oneplus.com",
    "nokia.com" ]

/-- `value.split("@")[-1]`: the substring after the last `@` (the whole
string when there is no `@`, the empty string when it ends with `@`).
Computed by a character fold that restarts at every `@`. -/
def emailDomain (value : String) : String :=
  ⟨value.data.foldl (fun acc c => if c = '@' then [] else acc ++ [c]) []⟩

/-- `validate_seller_email_domain` (identical in `Seller` and
`UpdateSeller`): reject when the domain is not in `allowed_domains`. -/
def validate_seller_email_domain (value : String) : Except String String :=
  if allowed_domains.contains (emailDomain value) then .ok value
  else .error ("Email domain '" ++ emailDomain value ++ "' is not allowed for sellers.")

/-! ### Validator invariants on stored records

`src/schema/product.py` validates records with pydantic `Field` constraints
plus the `check_discount` model validator and the seller email-domain
validator. We embed the constraints as Boolean checkers over the stored
JSON dictionaries (the `model_dump(mode="json")` form the service layer
persists): a stored record is valid when every model field is present with
the declared shape and bound (optional-with-`None`-default fields may hold
`null`). -/

/-- The `currency` enum (`Literal["USD", "EUR", "INR", "GBP"]`). -/
def currencies : List String := ["USD", "EUR", "INR", "GBP"]

/-- Constraints of the `Seller` model on its dumped dict: `seller_id` a
(UUID) string, `name` 1–50 chars, `email` a string whose domain passes
`validate_seller_email_domain`, `website` a (URL) string. -/
def sellerObjValid (s : Dict) : Bool :=
  (match getKey s "seller_id" with | some (.jstr _) => true | _ => false) &&
  (match getKey s "name" with
   | some (.jstr n) => 1 ≤ n.length && n.length ≤ 50
   | _ => false) &&
  (match getKey s "email" with
   | some (.jstr e) => allowed_domains.contains (emailDomain e)
   | _ => false) &&
  (match getKey s "website" with | some (.jstr _) => true | _ => false)

/-- Constraints of the `Dimensions_cm` model on its dumped dict:
three nonnegative numbers. -/
def dimsObjValid (d : Dict) : Bool :=
  (match getKey d "length" with | some (.jnum q) => decide (0 ≤ q) | _ => false) &&
  (match getKey d "width" with | some (.jnum q) => decide (0 ≤ q) | _ => false) &&
  (match getKey d "height" with | some (.jnum q) => decide (0 ≤ q) | _ => false)

/-- The model fields of `Product` (dump keys the validator constrains). -/
def checkedKeys : List String :=
  ["id", "sku", "name", "description", "category", "brand", "price",
   "currency", "discount_percent", "stock", "is_active", "rating", "tags",
   "image_url", "dimensions_cm", "seller", "created_at"]

/-- The `Product` constraint on one dump key (`none` = key absent).
Keys other than the model fields (e.g. the dumped computed fields
`discounted_price` and `volume_cm3`) are unconstrained. -/
def fieldOK (k : String) (ov : Option JVal) : Bool :=
  match k with
  | "id" => match ov with | some (.jstr _) => true | _ => false
  | "sku" =>
      match ov with
      | some (.jstr s) => 8 ≤ s.length && s.length ≤ 20
      | _ => false
  | "name" =>
      match ov with
      | some (.jstr s) => 1 ≤ s.length && s.length ≤ 50
      | _ => false
  | "description" =>
      match ov with
      | some .jnull => true
      | some (.jstr s) => s.length ≤ 500
      | _ => false
  | "category" =>
      match ov with
      | some (.jstr s) => 1 ≤ s.length && s.length ≤ 30
      | _ => false
  | "brand" =>
      match ov with
      | some .jnull => true
      | some (.jstr s) => s.length ≤ 30
      | _ => false
  | "price" => match ov with | some (.jnum q) => decide (0 ≤ q) | _ => false
  | "currency" =>
      match ov with
      | some (.jstr c) => currencies.contains c
      | _ => false
  | "discount_percent" =>
      match ov with
      | some .jnull => true
      | some (.jnum q) => decide (0 ≤ q) && decide (q ≤ 100)
      | _ => false
  | "stock" => match ov with | some (.jnum q) => decide (0 ≤ q) | _ => false
  | "is_active" => match ov with | some (.jbool _) => true | _ => false
  | "rating" =>
      match ov with
      | some .jnull => true
      | some (.jnum q) => decide (0 ≤ q) && decide (q ≤ 5)
      | _ => false
  | "tags" =>
      match ov with
      | some .jnull => true
      | some (.jarr xs) => xs.all (fun x => match x with | .jstr _ => true | _ => false)
      | _ => false
  | "image_url" =>
      match ov with
      | some .jnull => true
      | some (.jstr _) => true
      | _ => false
  | "dimensions_cm" => match ov with | some (.jobj d) => dimsObjValid d | _ => false
  | "seller" => match ov with | some (.jobj s) => sellerObjValid s | _ => false
  | "created_at" => match ov with | some (.jstr _) => true | _ => false
  | _ => true

/-- A stored record satisfies all `Product` validator invariants. -/
def validDict (p : Dict) : Bool :=
  checkedKeys.all (fun k => fieldOK k (getKey p k))

/-- Shape of `model_dump(mode="json")` of a validated full `Seller`
(the only form `Update_Product.seller` admits: the nested field is typed
`Optional[Seller]`, a complete `Seller`): the four fields in declaration
order, with the `Seller` constraints holding. -/
def sellerDumpOK (u : Dict) : Bool :=
  match u with
  | [("seller_id", .jstr _), ("name", .jstr n), ("email", .jstr e),
     ("website", .jstr _)] =>
      (1 ≤ n.length && n.length ≤ 50) && allowed_domains.contains (emailDomain e)
  | _ => false

/-- Shape of `model_dump(mode="json")` of a validated full `Dimensions_cm`
(the type of `Update_Product.dimensions_cm`). -/
def dimsDumpOK (u : Dict) : Bool :=
  match u with
  | [("length", .jnum l), ("width", .jnum w), ("height", .jnum h)] =>
      decide (0 ≤ l) && decide (0 ≤ w) && decide (0 ≤ h)
  | _ => false

/-- The keys that can occur in `payload.model_dump(mode="json",
exclude_unset=True)` of a validated `Update_Product`: the model fields
(`sku` is commented out of `Update_Product`) plus the two computed fields,
which pydantic always includes in a dump. -/
def updateKeys : List String :=
  ["id", "name", "description", "category", "brand", "price", "currency",
   "discount_percent", "stock", "is_active", "rating", "tags", "image_url",
   "dimensions_cm", "seller", "created_at", "discounted_price", "volume_cm3"]

/-- One binding of a validated `Update_Product` dump: an admissible key,
and a value that is either `null` (field explicitly set to `None`) or
satisfies the field's `Update_Product` constraint — which coincides with
the `Product` constraint for scalar fields, and is a full validated
nested dump for `seller` and `dimensions_cm`. -/
def updateEntryOK (k : String) (v : JVal) : Bool :=
  updateKeys.contains k &&
  (match v with
   | .jnull => true
   | .jobj u =>
       match k with
       | "seller" => sellerDumpOK u
       | "dimensions_cm" => dimsDumpOK u
       | _ => fieldOK k (some (.jobj u))
   | _ => fieldOK k (some v))

/-- A whole validated `Update_Product` dump: every binding admissible. -/
def validUpdateDump (u : Dict) : Bool :=
  u.all (fun kv => updateEntryOK kv.1 kv.2)

theorem getKey_setKey_self (d : Dict) (k : String) (v : JVal) :
    getKey (setKey d k v) k = some v := by
  induction d with
  | nil => simp [setKey, getKey]
  | cons kv rest ih =>
      obtain ⟨k', v'⟩ := kv
      by_cases h : k' = k <;> simp [setKey, getKey, h, ih]

theorem getKey_setKey_ne (d : Dict) (k k' : String) (v : JVal) (h : k ≠ k') :
    getKey (setKey d k v) k' = getKey d k' := by
  induction d with
  | nil => simp [setKey, getKey, h]
  | cons kv rest ih =>
      obtain ⟨k'', v''⟩ := kv
      by_cases h2 : k'' = k
      · subst h2; simp [setKey, getKey, h]
      · simp [setKey, getKey, h2, ih]

theorem validDict_setKey (p : Dict) (k : String) (v : JVal)
    (hp : validDict p = true) (hv : fieldOK k (some v) = true) :
    validDict (setKey p k v) = true := by
  simp only [validDict, List.all_eq_true] at hp ⊢
  intro k' hk'
  by_cases h : k = k'
  · subst h; rw [getKey_setKey_self]; exact hv
  · rw [getKey_setKey_ne _ _ _ _ h]; exact hp k' hk'

theorem validDict_field (p : Dict) (hp : validDict p = true) {k : String}
    (hk : k ∈ checkedKeys) : fieldOK k (getKey p k) = true := by
  have h : ∀ x ∈ checkedKeys, fieldOK x (getKey p x) = true := by
    simpa only [validDict, List.all_eq_true] using hp
  exact h k hk

theorem sellerObjValid_dictUpdate (r u : Dict) (hu : sellerDumpOK u = true) :
    sellerObjValid (dictUpdate r u) = true := by
  unfold sellerDumpOK at hu
  split at hu
  · rename_i i n e w
    simp only [Bool.and_eq_true] at hu
    have hmem : emailDomain e ∈ allowed_domains := by simpa using hu.2
    simp only [dictUpdate, List.foldl, sellerObjValid]
    simp [getKey_setKey_self, getKey_setKey_ne, hu.1.1, hu.1.2, hmem]
  · simp at hu

theorem dimsObjValid_dictUpdate (r u : Dict) (hu : dimsDumpOK u = true) :
    dimsObjValid (dictUpdate r u) = true := by
  unfold dimsDumpOK at hu
  split at hu
  · rename_i l w h
    simp only [Bool.and_eq_true] at hu
    simp only [dictUpdate, List.foldl, dimsObjValid]
    simp [getKey_setKey_self, getKey_setKey_ne, hu.1.1, hu.1.2, hu.2]
  · simp at hu

/-- Replacing the object stored under a key other than `seller` and
`dimensions_cm` by any other object keeps the field constraint (only the
two nested-model keys inspect object contents). -/
theorem fieldOK_jobj (k : String) (u u' : Dict)
    (h1 : ¬ k = "seller") (h2 : ¬ k = "dimensions_cm")
    (h : fieldOK k (some (.jobj u)) = true) :
    fieldOK k (some (.jobj u')) = true := by
  unfold fieldOK at h ⊢
  split at h <;> simp_all

/-- One merge-loop iteration keeps the merged record valid: merging an
admissible `Update_Product` binding into a record that satisfies the
validator invariants yields a record that still satisfies them. -/
theorem validDict_mergeStep (p : Dict) (k : String) (v : JVal)
    (hp : validDict p = true) (hv : updateEntryOK k v = true) :
    validDict (mergeStep p (k, v)) = true := by
  simp only [updateEntryOK, Bool.and_eq_true] at hv
  obtain ⟨-, hv⟩ := hv
  cases v with
  | jnull => simpa [mergeStep] using hp
  | jobj u =>
      simp only [mergeStep]
      by_cases hsell : k = "seller"
      · subst hsell
        have hss : fieldOK "seller" (getKey p "seller") = true :=
          validDict_field p hp (by simp [checkedKeys])
        have hv' : sellerDumpOK u = true := hv
        match hget : getKey p "seller" with
        | some (.jobj r) =>
            exact validDict_setKey p _ _ hp
              (by simpa [fieldOK] using sellerObjValid_dictUpdate r u hv')
        | some .jnull | some (.jbool _) | some (.jnum _) | some (.jstr _)
        | some (.jarr _) | none => rw [hget] at hss; simp [fieldOK] at hss
      · by_cases hdims : k = "dimensions_cm"
        · subst hdims
          have hdd : fieldOK "dimensions_cm" (getKey p "dimensions_cm") = true :=
            validDict_field p hp (by simp [checkedKeys])
          have hv' : dimsDumpOK u = true := hv
          match hget : getKey p "dimensions_cm" with
          | some (.jobj r) =>
              exact validDict_setKey p _ _ hp
                (by simpa [fieldOK] using dimsObjValid_dictUpdate r u hv')
          | some .jnull | some (.jbool _) | some (.jnum _) | some (.jstr _)
          | some (.jarr _) | none => rw [hget] at hdd; simp [fieldOK] at hdd
        · simp only [hsell, hdims] at hv
          match hget : getKey p k with
          | some (.jobj r) =>
              exact validDict_setKey p _ _ hp
                (fieldOK_jobj k u (dictUpdate r u) hsell hdims hv)
          | some .jnull | some (.jbool _) | some (.jnum _) | some (.jstr _)
          | some (.jarr _) | none => exact validDict_setKey p _ _ hp hv
  | jbool b => exact validDict_setKey p _ _ hp hv
  | jnum q => exact validDict_setKey p _ _ hp hv
  | jstr s => exact validDict_setKey p _ _ hp hv
  | jarr xs => exact validDict_setKey p _ _ hp hv

/-- Folding a whole admissible `Update_Product` dump over a valid record
keeps it valid. -/
theorem validDict_applyUpdate (p u : Dict)
    (hp : validDict p = true) (hu : validUpdateDump u = true) :
    validDict (applyUpdate p u) = true := by
  induction u generalizing p with
  | nil => simpa [applyUpdate] using hp
  | cons kv rest ih =>
      simp only [validUpdateDump, List.all_cons, Bool.and_eq_true] at hu
      have h1 : validDict (mergeStep p kv) = true := by
        have := validDict_mergeStep p kv.1 kv.2 hp hu.1
        simpa using this
      have h2 := ih (mergeStep p kv) h1 (by simpa [validUpdateDump] using hu.2)
      simpa [applyUpdate] using h2

theorem getKey_mergeStep_ne (p : Dict) (kv : String × JVal) (k : String)
    (h : kv.1 ≠ k) : getKey (mergeStep p kv) k = getKey p k := by
  obtain ⟨k0, v0⟩ := kv
  simp only at h
  cases v0 with
  | jnull => rfl
  | jobj u =>
      simp only [mergeStep]
      match getKey p k0 with
      | some (.jobj r) => exact getKey_setKey_ne _ _ _ _ h
      | some .jnull | some (.jbool _) | some (.jnum _) | some (.jstr _)
      | some (.jarr _) | none => exact getKey_setKey_ne _ _ _ _ h
  | jbool b => exact getKey_setKey_ne _ _ _ _ h
  | jnum q => exact getKey_setKey_ne _ _ _ _ h
  | jstr s => exact getKey_setKey_ne _ _ _ _ h
  | jarr xs => exact getKey_setKey_ne _ _ _ _ h

/-- Keys whose every binding in the update dict is `null` (in particular
keys with no binding at all) are untouched by the merge loop. -/
theorem getKey_applyUpdate_untouched (p u : Dict) (k : String)
    (h : ∀ kv ∈ u, kv.1 = k → kv.2 = .jnull) :
    getKey (applyUpdate p u) k = getKey p k := by
  induction u generalizing p with
  | nil => rfl
  | cons kv rest ih =>
      have hrest : getKey (applyUpdate (mergeStep p kv) rest) k
          = getKey (mergeStep p kv) k :=
        ih (mergeStep p kv) (fun kv' hm hk => h kv' (List.mem_cons_of_mem _ hm) hk)
      have hstep : getKey (mergeStep p kv) k = getKey p k := by
        by_cases he : kv.1 = k
        · have hv : kv.2 = .jnull := h kv (List.mem_cons_self _ _) he
          obtain ⟨k0, v0⟩ := kv
          simp only at hv
          subst hv
          rfl
        · exact getKey_mergeStep_ne p kv k he
      calc getKey (applyUpdate p (kv :: rest)) k
          = getKey (applyUpdate (mergeStep p kv) rest) k := rfl
        _ = getKey p k := by rw [hrest, hstep]

theorem getKey_eq_none_of_not_mem (u : Dict) (k : String)
    (h : k ∉ u.map Prod.fst) : getKey u k = none := by
  induction u with
  | nil => rfl
  | cons kv rest ih =>
      simp only [List.map_cons, List.mem_cons] at h
      push_neg at h
      have hne : ¬ kv.1 = k := fun he => h.1 he.symm
      simp [getKey, hne, ih h.2]

/-- Lookup after `r.update(u)` (keys of `u` distinct, as in a Python dict):
`u`'s binding wins when present, otherwise `r`'s value survives. -/
theorem getKey_dictUpdate (r u : Dict) (k : String)
    (hnd : (u.map Prod.fst).Nodup) :
    getKey (dictUpdate r u) k = (getKey u k).or (getKey r k) := by
  induction u generalizing r with
  | nil => simp [dictUpdate, getKey]
  | cons kv rest ih =>
      obtain ⟨k0, v0⟩ := kv
      simp only [List.map_cons, List.nodup_cons] at hnd
      have hstep : dictUpdate r ((k0, v0) :: rest) = dictUpdate (setKey r k0 v0) rest := rfl
      rw [hstep, ih (setKey r k0 v0) hnd.2]
      by_cases he : k0 = k
      · subst he
        rw [getKey_eq_none_of_not_mem rest k0 hnd.1]
        simp [getKey, getKey_setKey_self]
      · simp [getKey, he, getKey_setKey_ne r k0 k v0 he]

/-- In a dict with distinct keys (every Python dict), lookup of a
binding's key returns that binding's value. -/
theorem getKey_eq_of_mem_nodup (u : Dict) (hnd : (u.map Prod.fst).Nodup)
    (kv : String × JVal) (hmem : kv ∈ u) : getKey u kv.1 = some kv.2 := by
  induction u with
  | nil => cases hmem
  | cons hd tl ih =>
      simp only [List.map_cons, List.nodup_cons] at hnd
      rcases List.mem_cons.mp hmem with h | h
      · subst h; simp [getKey]
      · have hne : ¬ hd.1 = kv.1 := by
          intro he
          exact hnd.1 (he ▸ List.mem_map.mpr ⟨kv, h, rfl⟩)
        simp [getKey, hne, ih hnd.2 h]

theorem beqOpt_refl (o : Option JVal) : beqOpt o o = true := by
  cases o with
  | none => rfl
  | some v => simpa [beqOpt] using beqJ_refl v

/-! ### The API layer's create and read (`src/main.py`)

`create_product` serializes the validated `Product` with
`product.model_dump(mode="json")` — which in pydantic v2 includes the
`@computed_field` properties `discounted_price` and `volume_cm3` — then
overwrites `id` and `created_at` with server-generated values and calls
`add_product`. `get_product_by_id` returns the stored dict of the first
record whose `"id"` equals the path parameter, verbatim (no model
re-validation, no recomputation of derived values). -/

/-- The `Seller` model fields, with UUID/email/URL values as strings
(their JSON dump form). -/
structure SellerRec where
  seller_id : String
  name : String
  email : String
  website : String
deriving Repr, DecidableEq

/-- The `Product` model fields (`src/schema/product.py` lines 79–155) in
JSON dump form: UUIDs, URLs and timestamps as strings, numbers as
rationals. -/
structure ProductRec where
  id : String
  sku : String
  name : String
  description : Option String
  category : String
  brand : Option String
  price : ℚ
  currency : String
  discount_percent : Option ℚ
  stock : ℤ
  is_active : Bool
  rating : Option ℚ
  tags : Option (List String)
  image_url : Option String
  dimensions_cm : Dimensions_cm
  seller : SellerRec
  created_at : String
deriving Repr, DecidableEq

/-- JSON form of an optional string field (`None` dumps as `null`). -/
def jsonOfOptStr : Option String → JVal
  | none => .jnull
  | some s => .jstr s

/-- JSON form of an optional numeric field. -/
def jsonOfOptNum : Option ℚ → JVal
  | none => .jnull
  | some q => .jnum q

/-- JSON form of the optional `tags` list. -/
def jsonOfTags : Option (List String) → JVal
  | none => .jnull
  | some ts => .jarr (ts.map .jstr)

/-- `model_dump(mode="json")` of a `Seller`: its fields in declaration
order. -/
def dumpSeller (s : SellerRec) : Dict :=
  [("seller_id", .jstr s.seller_id), ("name", .jstr s.name),
   ("email", .jstr s.email), ("website", .jstr s.website)]

/-- `model_dump(mode="json")` of a `Dimensions_cm`. -/
def dumpDims (d : Dimensions_cm) : Dict :=
  [("length", .jnum d.length), ("width", .jnum d.width),
   ("height", .jnum d.height)]

/-- `product.model_dump(mode="json")` of a validated `Product`: the model
fields in declaration order followed by the `@computed_field` properties
`discounted_price` and `volume_cm3`, which pydantic includes in every
serialization of the model. -/
def model_dump (p : ProductRec) : Dict :=
  [("id", .jstr p.id), ("sku", .jstr p.sku), ("name", .jstr p.name),
   ("description", jsonOfOptStr p.description),
   ("category", .jstr p.category), ("brand", jsonOfOptStr p.brand),
   ("price", .jnum p.price), ("currency", .jstr p.currency),
   ("discount_percent", jsonOfOptNum p.discount_percent),
   ("stock", .jnum (p.stock : ℚ)), ("is_active", .jbool p.is_active),
   ("rating", jsonOfOptNum p.rating), ("tags", jsonOfTags p.tags),
   ("image_url", jsonOfOptStr p.image_url),
   ("dimensions_cm", .jobj (dumpDims p.dimensions_cm)),
   ("seller", .jobj (dumpSeller p.seller)),
   ("created_at", .jstr p.created_at),
   ("discounted_price", jsonOfOptNum (discounted_price p.price p.discount_percent)),
   ("volume_cm3", .jnum (volume_cm3 p.dimensions_cm))]

/-- `create_product` from `src/main.py` lines 91–100: dump the validated
product, overwrite `id` with a fresh UUID and `created_at` with the
current timestamp (both passed in here), then `add_product`. -/
def create_product (product : ProductRec) (newId created_at : String)
    (products : List Dict) : Except String (List Dict) :=
  let product_dict :=
    setKey (setKey (model_dump product) "id" (.jstr newId))
      "created_at" (.jstr created_at)
  add_product product_dict products

/-- `get_product_by_id` from `src/main.py` lines 77–89: return the first
stored dict whose `"id"` equals the path id, as stored (404 → `none`). -/
def get_product_by_id (product_id : String) (products : List Dict) :
    Option Dict :=
  products.find? (fun p => idMatches p product_id)

/-! ### Claim theorems -/

/-- C1: the claim says the update operation applies the merged update to
exactly the record whose identifier equals `id` and fails with
NotFoundError when no such record exists. The code does neither: the loop
in `change_product` never compares `product["id"]` with `id`. Evaluated at
concrete inputs, `change_product "b" …` modifies the record with id `"a"`
(the first in the collection) and leaves the record with id `"b"`
untouched; a wholly absent id succeeds on a nonempty collection; only an
empty collection produces the not-found error. -/
theorem c1_change_product_ignores_id :
    change_product "b" [("price", .jnum 50)]
        [[("id", .jstr "a"), ("price", .jnum 1)],
         [("id", .jstr "b"), ("price", .jnum 2)]]
      = .ok ([[("id", .jstr "a"), ("price", .jnum 50)],
              [("id", .jstr "b"), ("price", .jnum 2)]],
             [("id", .jstr "a"), ("price", .jnum 50)])
    ∧ change_product "zzz" [("price", .jnum 50)]
        [[("id", .jstr "a"), ("price", .jnum 1)]]
      = .ok ([[("id", .jstr "a"), ("price", .jnum 50)]],
             [("id", .jstr "a"), ("price", .jnum 50)])
    ∧ change_product "zzz" [("price", .jnum 50)] []
      = .error "Product with id zzz not found." :=
  ⟨rfl, rfl, rfl⟩

/-- C2: for every stored collection of validator-conforming records and
every payload that a validated `Update_Product` can dump, whatever
`change_product` persists still satisfies every validator invariant — so
no unvalidated or invariant-violating merged record is ever written. (The
claim's failure branch is unreachable: a validated payload merged into a
valid record cannot violate an invariant, which this theorem proves, and
on the only failing path — the empty collection — nothing is written.) -/
theorem c2_update_merge_preserves_validator_invariants
    (id : String) (update_data : Dict) (products ps' : List Dict)
    (merged : Dict)
    (hall : ∀ p ∈ products, validDict p = true)
    (hu : validUpdateDump update_data = true)
    (h : change_product id update_data products = .ok (ps', merged)) :
    ∀ p ∈ ps', validDict p = true := by
  cases products with
  | nil => simp [change_product] at h
  | cons p0 rest =>
      simp only [change_product, Except.ok.injEq, Prod.mk.injEq] at h
      obtain ⟨hps, -⟩ := h
      subst hps
      intro p hp
      rcases List.mem_cons.mp hp with h | h
      · subst h
        exact validDict_applyUpdate p0 update_data (hall p0 (by simp)) hu
      · exact hall p (List.mem_cons_of_mem _ h)

/-- Concrete valid stored record used to instantiate the C2 theorem. -/
def c2record : Dict :=
  [("id", .jstr "2f54696f-d3e1-32a3-a3ef-d8593fae2d7b"),
   ("sku", .jstr "ABCD12345"), ("name", .jstr "Mouse"),
   ("description", .jnull), ("category", .jstr "electronics"),
   ("brand", .jnull), ("price", .jnum 20), ("currency", .jstr "USD"),
   ("discount_percent", .jnum 10), ("stock", .jnum 5),
   ("is_active", .jbool true), ("rating", .jnull), ("tags", .jnull),
   ("image_url", .jnull),
   ("dimensions_cm", .jobj [("length", .jnum 1), ("width", .jnum 2),
                            ("height", .jnum 3)]),
   ("seller", .jobj [("seller_id", .jstr "7c9e6679-7425-40de-944b-e07fc1f90ae7"),
                     ("name", .jstr "A"), ("email", .jstr "a@example.com"),
                     ("website", .jstr "https://a.example.com")]),
   ("created_at", .jstr "2024-01-01T00:00:00Z"),
   ("discounted_price", .jnum 18), ("volume_cm3", .jnum 6)]

theorem c2_update_merge_preserves_validator_invariants_witness :
    (∀ p ∈ [c2record], validDict p = true)
    ∧ validUpdateDump [("price", .jnum 50)] = true
    ∧ ∀ p ∈ [applyUpdate c2record [("price", .jnum 50)]], validDict p = true :=
  ⟨by decide, by decide,
   c2_update_merge_preserves_validator_invariants
     "2f54696f-d3e1-32a3-a3ef-d8593fae2d7b" [("price", .jnum 50)] [c2record]
     [applyUpdate c2record [("price", .jnum 50)]]
     (applyUpdate c2record [("price", .jnum 50)])
     (by decide) (by decide) rfl⟩

/-- C3: the claim says delete fails with NotFoundError when no record
matches and the collection is unchanged. The collection is indeed not
rewritten, but `remove_product` raises nothing: its loop falls through and
returns Python `None` (`delete_product` in `src/main.py` then answers 200
with a null body, never reaching its 404 branch). On a matching id the
deleted record is returned (inside a message wrapper in the source). -/
theorem c3_remove_product_missing_id_is_silent :
    remove_product "b" [[("id", .jstr "a"), ("sku", .jstr "SKU00001")]] = none
    ∧ remove_product "c" [] = none
    ∧ remove_product "a" [[("id", .jstr "a")], [("id", .jstr "b")]]
      = some ([[("id", .jstr "b")]], [("id", .jstr "a")]) :=
  ⟨rfl, rfl, rfl⟩

/-- C4: the claim says no update operation can change a record's
identifier. It can: `Update_Product.id` is a required field, so every
validated payload dump contains `"id"`, and the merge loop in
`change_product` copies it over the stored identifier. Updating the
record whose id is `"a"` with a payload carrying id `"b"` persists the
record with id `"b"`. -/
theorem c4_update_overwrites_identifier :
    change_product "a" [("id", .jstr "b"), ("price", .jnum 50)]
        [[("id", .jstr "a"), ("price", .jnum 1)]]
      = .ok ([[("id", .jstr "b"), ("price", .jnum 50)]],
             [("id", .jstr "b"), ("price", .jnum 50)]) :=
  rfl

/-- Concrete valid product used to instantiate the C5 theorems. -/
def sampleProduct : ProductRec :=
  { id := "2f54696f-d3e1-32a3-a3ef-d8593fae2d7b"
    sku := "ABCD12345"
    name := "Mouse"
    description := none
    category := "electronics"
    brand := none
    price := 20
    currency := "USD"
    discount_percent := some 10
    stock := 5
    is_active := true
    rating := none
    tags := none
    image_url := none
    dimensions_cm := ⟨1, 2, 3⟩
    seller := ⟨"7c9e6679-7425-40de-944b-e07fc1f90ae7", "A", "a@example.com",
               "https://a.example.com"⟩
    created_at := "2024-01-01T00:00:00Z" }

/-- C5 counterexample: the claim says the derived fields
`discounted_price` and `volume_cm3` are never persisted. Creating the
sample product (price 20, discount 10%, dimensions 1×2×3) writes a stored
record that contains both keys, with the derived values computed at write
time. -/
theorem c5_counterexample_derived_fields_persisted :
    ∃ r, create_product sampleProduct "new-id" "2024-02-02T00:00:00Z" []
          = .ok [r]
      ∧ getKey r "discounted_price" = some (.jnum 18)
      ∧ getKey r "volume_cm3" = some (.jnum 6) := by
  refine ⟨setKey (setKey (model_dump sampleProduct) "id" (.jstr "new-id"))
      "created_at" (.jstr "2024-02-02T00:00:00Z"), rfl, ?_, ?_⟩
  · have h : discounted_price 20 (some 10) = some 18 := by
      norm_num [discounted_price, round2, roundHalfEven]
    calc getKey (setKey (setKey (model_dump sampleProduct) "id" (.jstr "new-id"))
            "created_at" (.jstr "2024-02-02T00:00:00Z")) "discounted_price"
        = some (jsonOfOptNum (discounted_price 20 (some 10))) := rfl
      _ = some (.jnum 18) := by rw [h]; rfl
  · have h : volume_cm3 ⟨1, 2, 3⟩ = 6 := by
      norm_num [volume_cm3, round2, roundHalfEven]
    calc getKey (setKey (setKey (model_dump sampleProduct) "id" (.jstr "new-id"))
            "created_at" (.jstr "2024-02-02T00:00:00Z")) "volume_cm3"
        = some (.jnum (volume_cm3 ⟨1, 2, 3⟩)) := rfl
      _ = some (.jnum 6) := by rw [h]

/-- C5 (amended): every record persisted by `create_product` contains the
derived fields `discounted_price` and `volume_cm3`, holding the values
computed from the validated product's stored fields at write time — they
are persisted, not recomputed on read: `get_product_by_id` returns a
stored dict verbatim. -/
theorem c5_create_persists_computed_fields (p : ProductRec)
    (newId ts : String) (products ps' : List Dict)
    (h : create_product p newId ts products = .ok ps') :
    ∃ r, ps' = products ++ [r]
      ∧ getKey r "discounted_price"
          = some (jsonOfOptNum (discounted_price p.price p.discount_percent))
      ∧ getKey r "volume_cm3" = some (.jnum (volume_cm3 p.dimensions_cm))
      ∧ ∀ pid r', get_product_by_id pid ps' = some r' → r' ∈ ps' := by
  unfold create_product add_product at h
  simp only [] at h
  split at h
  · exact absurd h (by simp)
  · simp only [Except.ok.injEq] at h
    subst h
    refine ⟨_, rfl, ?_, ?_, ?_⟩
    · rw [getKey_setKey_ne _ "created_at" "discounted_price" _ (by decide),
        getKey_setKey_ne _ "id" "discounted_price" _ (by decide)]
      rfl
    · rw [getKey_setKey_ne _ "created_at" "volume_cm3" _ (by decide),
        getKey_setKey_ne _ "id" "volume_cm3" _ (by decide)]
      rfl
    · intro pid r' hr'
      exact List.mem_of_find?_eq_some hr'

/-- The record `create_product` persists for the sample product. -/
def c5stored : Dict :=
  setKey (setKey (model_dump sampleProduct) "id" (.jstr "new-id"))
    "created_at" (.jstr "2024-02-02T00:00:00Z")

theorem c5_create_persists_computed_fields_witness :
    ∃ r, [c5stored] = [] ++ [r]
      ∧ getKey r "discounted_price"
          = some (jsonOfOptNum (discounted_price sampleProduct.price
              sampleProduct.discount_percent))
      ∧ getKey r "volume_cm3"
          = some (.jnum (volume_cm3 sampleProduct.dimensions_cm))
      ∧ ∀ pid r', get_product_by_id pid [c5stored] = some r' → r' ∈ [c5stored] :=
  c5_create_persists_computed_fields sampleProduct "new-id"
    "2024-02-02T00:00:00Z" [] [c5stored] rfl

/-- C6: creating a product whose `"sku"` equals an existing record's
`"sku"` fails with the ConflictError (and, the result being an error, the
collection is not rewritten); a successful create only appends, and it
preserves SKU uniqueness across the collection. -/
theorem c6_duplicate_sku_conflict (product : Dict) (products : List Dict) :
    ((∃ p ∈ products, getKey p "sku" = getKey product "sku") →
        ∃ msg, add_product product products = .error msg)
    ∧ (∀ ps', add_product product products = .ok ps' →
        ps' = products ++ [product]
        ∧ ((products.map (fun p => getKey p "sku")).Nodup →
            (ps'.map (fun p => getKey p "sku")).Nodup)) := by
  constructor
  · rintro ⟨p, hp, he⟩
    have hany : products.any
        (fun p => beqOpt (getKey p "sku") (getKey product "sku")) = true := by
      refine List.any_eq_true.mpr ⟨p, hp, ?_⟩
      rw [he]; exact beqOpt_refl _
    exact ⟨"Product with SKU " ++ skuText (getKey product "sku")
      ++ " already exists.", by simp [add_product, hany]⟩
  · intro ps' h
    unfold add_product at h
    split at h
    · exact absurd h (by simp)
    · rename_i hany
      simp only [Except.ok.injEq] at h
      subst h
      refine ⟨rfl, fun hnd => ?_⟩
      have hfalse : ∀ p ∈ products,
          beqOpt (getKey p "sku") (getKey product "sku") = false := by
        intro p hp
        by_contra hc
        exact hany (List.any_eq_true.mpr ⟨p, hp, by simpa using hc⟩)
      rw [List.map_append]
      refine List.Nodup.append hnd (by simp) ?_
      intro a ha
      simp only [List.mem_map] at ha
      obtain ⟨p, hp, rfl⟩ := ha
      simp only [List.map_cons, List.map_nil, List.mem_singleton]
      intro hc
      have := hfalse p hp
      rw [hc, beqOpt_refl] at this
      cases this

theorem c6_duplicate_sku_conflict_witness :
    ∃ msg, add_product [("sku", .jstr "ABCDEFGH"), ("name", .jstr "New")]
        [[("sku", .jstr "ABCDEFGH"), ("name", .jstr "Old")]]
      = .error msg :=
  (c6_duplicate_sku_conflict _ _).1
    ⟨[("sku", .jstr "ABCDEFGH"), ("name", .jstr "Old")], by simp, rfl⟩

/-- C7: the merge loop obeys the claimed rule. A `null` value leaves the
record untouched; when both the update value and the stored value under a
key are objects, the stored object is updated field-by-field (the update's
fields override, and a field not mentioned by the update keeps the stored
value, as the lookup characterization of `dictUpdate` states); any other
value — and an object value over a non-object stored value — replaces the
stored value wholesale. The spec's own example evaluates as claimed:
seller `{name: "A", email: "a@x.com"}` updated with `{seller: {name: "B"}}`
gives seller `{name: "B", email: "a@x.com"}`. -/
theorem c7_merge_rule :
    (∀ (R : Dict) (k : String), mergeStep R (k, .jnull) = R)
    ∧ (∀ (R : Dict) (k : String) (u r : Dict), getKey R k = some (.jobj r) →
        mergeStep R (k, .jobj u) = setKey R k (.jobj (dictUpdate r u)))
    ∧ (∀ (r u : Dict) (k' : String), (u.map Prod.fst).Nodup →
        getKey (dictUpdate r u) k' = (getKey u k').or (getKey r k'))
    ∧ (∀ (R : Dict) (k : String) (v : JVal),
        v ≠ .jnull → (∀ u, v ≠ .jobj u) → mergeStep R (k, v) = setKey R k v)
    ∧ (∀ (R : Dict) (k : String) (u : Dict),
        (∀ r, getKey R k ≠ some (.jobj r)) →
        mergeStep R (k, .jobj u) = setKey R k (.jobj u))
    ∧ applyUpdate
        [("seller", .jobj [("name", .jstr "A"), ("email", .jstr "a@x.com")])]
        [("seller", .jobj [("name", .jstr "B")])]
      = [("seller", .jobj [("name", .jstr "B"), ("email", .jstr "a@x.com")])] := by
  have hB : ∀ (R : Dict) (k : String) (u r : Dict),
      getKey R k = some (.jobj r) →
      mergeStep R (k, .jobj u) = setKey R k (.jobj (dictUpdate r u)) := by
    intro R k u r hget
    simp [mergeStep, hget]
  have hD : ∀ (R : Dict) (k : String) (v : JVal),
      v ≠ .jnull → (∀ u, v ≠ .jobj u) → mergeStep R (k, v) = setKey R k v := by
    intro R k v h0 hobj
    cases v with
    | jnull => exact absurd rfl h0
    | jobj u => exact absurd rfl (hobj u)
    | jbool b => rfl
    | jnum q => rfl
    | jstr s => rfl
    | jarr xs => rfl
  have hE : ∀ (R : Dict) (k : String) (u : Dict),
      (∀ r, getKey R k ≠ some (.jobj r)) →
      mergeStep R (k, .jobj u) = setKey R k (.jobj u) := by
    intro R k u hne
    simp only [mergeStep]
  exact ⟨fun R k => rfl, hB, getKey_dictUpdate, hD, hE, rfl⟩

theorem c7_merge_rule_witness :
    mergeStep [("seller", .jobj [("name", .jstr "A"), ("email", .jstr "a@x.com")])]
        ("seller", .jobj [("name", .jstr "B")])
      = setKey [("seller", .jobj [("name", .jstr "A"), ("email", .jstr "a@x.com")])]
          "seller"
          (.jobj (dictUpdate [("name", .jstr "A"), ("email", .jstr "a@x.com")]
            [("name", .jstr "B")]))
    ∧ getKey (dictUpdate [("name", .jstr "A"), ("email", .jstr "a@x.com")]
        [("name", .jstr "B")]) "email" = some (.jstr "a@x.com") :=
  ⟨c7_merge_rule.2.1 _ "seller" _ _ rfl,
   by rw [c7_merge_rule.2.2.1 _ _ "email" (by decide)]; rfl⟩

/-- C8: across any update that `change_product` persists, every key that
the payload omits, or carries with value `null`, has the same value in
every stored record afterwards as before (the untouched records trivially,
and the merged record by the merge loop's skip rule); and the spec's
concrete example holds: merging `{price: 50}` into a record with price 10
and stock 10 yields price 50 and stock 10. -/
theorem c8_absent_fields_unchanged :
    (∀ (id : String) (U : Dict) (products ps' : List Dict) (merged : Dict)
        (k : String),
        (U.map Prod.fst).Nodup →
        (getKey U k = none ∨ getKey U k = some .jnull) →
        change_product id U products = .ok (ps', merged) →
        ps'.map (fun p => getKey p k) = products.map (fun p => getKey p k))
    ∧ applyUpdate [("price", .jnum 10), ("stock", .jnum 10)]
        [("price", .jnum 50)]
      = [("price", .jnum 50), ("stock", .jnum 10)] := by
  refine ⟨?_, rfl⟩
  intro id U products ps' merged k hnd hk h
  cases products with
  | nil => simp [change_product] at h
  | cons p0 rest =>
      simp only [change_product, Except.ok.injEq, Prod.mk.injEq] at h
      obtain ⟨hps, -⟩ := h
      subst hps
      simp only [List.map_cons, List.cons.injEq]
      refine ⟨?_, trivial⟩
      apply getKey_applyUpdate_untouched
      intro kv hm he
      have hv := getKey_eq_of_mem_nodup U hnd kv hm
      rw [he] at hv
      rcases hk with hk | hk
      · rw [hk] at hv; cases hv
      · rw [hk] at hv
        exact (Option.some.injEq _ _ ▸ hv).symm

theorem c8_absent_fields_unchanged_witness :
    ([applyUpdate [("price", .jnum 10), ("stock", .jnum 10)]
        [("price", .jnum 50)]].map (fun p => getKey p "stock"))
      = ([[("price", .jnum 10), ("stock", .jnum 10)]].map
          (fun p => getKey p "stock")) :=
  c8_absent_fields_unchanged.1 "a" [("price", .jnum 50)]
    [[("price", .jnum 10), ("stock", .jnum 10)]]
    [applyUpdate [("price", .jnum 10), ("stock", .jnum 10)]
      [("price", .jnum 50)]]
    (applyUpdate [("price", .jnum 10), ("stock", .jnum 10)]
      [("price", .jnum 50)])
    "stock" (by decide) (Or.inl rfl) rfl

/-- C9: the derived fields follow the source formulas —
`discounted_price` is `round(price - (discount/100)·price, 2)` exactly
when `discount_percent` is set and absent otherwise, `volume_cm3` is
`round(length·width·height, 2)` — and the spec's example pins
`discounted_price 20 (some 10) = 18`. (Derivation is a pure function of
the record's fields, hence deterministic and idempotent across calls.) -/
theorem c9_derived_field_formulas :
    (∀ price d : ℚ,
        discounted_price price (some d)
          = some (round2 (price - d / 100 * price)))
    ∧ (∀ price : ℚ, discounted_price price none = none)
    ∧ (∀ (price : ℚ) (dp : Option ℚ),
        (discounted_price price dp).isSome ↔ dp.isSome)
    ∧ (∀ d : Dimensions_cm,
        volume_cm3 d = round2 (d.length * d.width * d.height))
    ∧ discounted_price 20 (some 10) = some 18 := by
  refine ⟨fun _ _ => rfl, fun _ => rfl, ?_, fun _ => rfl, ?_⟩
  · intro price dp
    cases dp <;> simp [discounted_price]
  · norm_num [discounted_price, round2, roundHalfEven]

/-- C10: the missing comma in the source's set literal concatenates
`"dellexclusive.in"` and `"ecommerce.com"` into the single entry
`"dellexclusive.inecommerce.com"`, so the validator rejects every email
whose domain is `ecommerce.com` or `dellexclusive.in` and accepts one
whose domain is `dellexclusive.inecommerce.com`. -/
theorem c10_email_domain_allowlist_concatenation :
    (∀ value : String, emailDomain value = "ecommerce.com" →
        validate_seller_email_domain value
          = .error "Email domain 'ecommerce.com' is not allowed for sellers.")
    ∧ (∀ value : String, emailDomain value = "dellexclusive.in" →
        validate_seller_email_domain value
          = .error "Email domain 'dellexclusive.in' is not allowed for sellers.")
    ∧ (∀ value : String, emailDomain value = "dellexclusive.inecommerce.com" →
        validate_seller_email_domain value = .ok value)
    ∧ "ecommerce.com" ∉ allowed_domains
    ∧ "dellexclusive.in" ∉ allowed_domains
    ∧ "dellexclusive.inecommerce.com" ∈ allowed_domains := by
  refine ⟨?_, ?_, ?_, by decide, by decide, by decide⟩
  all_goals
    intro value h
    unfold validate_seller_email_domain
    rw [h]
    rfl

theorem c10_email_domain_allowlist_concatenation_witness :
    validate_seller_email_domain "seller@ecommerce.com"
      = .error "Email domain 'ecommerce.com' is not allowed for sellers."
    ∧ validate_seller_email_domain "seller@dellexclusive.in"
      = .error "Email domain 'dellexclusive.in' is not allowed for sellers."
    ∧ validate_seller_email_domain "seller@dellexclusive.inecommerce.com"
      = .ok "seller@dellexclusive.inecommerce.com" :=
  ⟨c10_email_domain_allowlist_concatenation.1 _ rfl,
   c10_email_domain_allowlist_concatenation.2.1 _ rfl,
   c10_email_domain_allowlist_concatenation.2.2.1 _ rfl⟩

end FastEcomm
